import Mathlib

/-!
Shallow embedding of the FlowForge session-clock and history-log core
(src/src/App.tsx).  JavaScript numbers that the component only ever holds
as non-negative integers (durations in minutes, remaining seconds, history
counters) are modelled as Nat; epoch-millisecond instants as Int.  React
state is gathered into one record, and every event handler or effect body
becomes a pure transition function on that record, taking the current
wall-clock instant (Date.now()) as an explicit argument.
-/

namespace FlowForge

/-- Phase of the session clock; source strings "focus" and "break". -/
inductive Phase where
  | focus
  | break_
deriving DecidableEq, Repr

/-- Settings record (App.tsx lines 29-34). -/
structure Settings where
  presetName : String
  focusMin : Nat
  breakMin : Nat
  autoStartNext : Bool
deriving DecidableEq, Repr

/-- DaySession record (App.tsx lines 51-55): one completed focus session. -/
structure DaySession where
  ts : Int
  minutes : Nat
  preset : String
deriving DecidableEq, Repr

/-- HistoryDay record (App.tsx lines 57-61). -/
structure HistoryDay where
  count : Nat
  minutes : Nat
  sessions : List DaySession
deriving DecidableEq, Repr

/-- HistoryMap (App.tsx line 63): a JS object keyed by YYYY-MM-DD strings,
modelled by its lookup function; a key that was never assigned maps to
none. -/
def HistoryMap : Type := String → Option HistoryDay

/-- The empty HistoryDay used as the default when a key is absent
(the expression h[key] || \x7b count: 0, minutes: 0, sessions: [] \x7d). -/
def emptyDay : HistoryDay := { count := 0, minutes := 0, sessions := [] }

/-- Lookup with the default used throughout the source. -/
def dayOf (h : HistoryMap) (k : String) : HistoryDay := (h k).getD emptyDay

/- ===== Date-key helpers (App.tsx lines 71, 449-459) ===== -/

/-- Two-digit zero padding, as in the pad helper (App.tsx line 69). -/
def pad2 (n : Nat) : String := if n < 10 then "0" ++ toString n else toString n

/-- Four-digit zero padding for the year part of toISOString. -/
def pad4 (n : Nat) : String :=
  if n < 10 then "000" ++ toString n
  else if n < 100 then "00" ++ toString n
  else if n < 1000 then "0" ++ toString n
  else toString n

/-- Proleptic-Gregorian civil date (year, month, day) of a day number
counted from 1970-01-01, as used by Date.prototype.toISOString. -/
def civilFromDays (z0 : Int) : Int × Nat × Nat :=
  let z := z0 + 719468
  let era := z.fdiv 146097
  let doe := (z - era * 146097).toNat
  let yoe := (doe - doe / 1460 + doe / 36524 - doe / 146096) / 365
  let doy := doe - (365 * yoe + yoe / 4 - yoe / 100)
  let mp := (5 * doy + 2) / 153
  let d := doy - (153 * mp + 2) / 5 + 1
  let m := if mp < 10 then mp + 3 else mp - 9
  let y := (yoe : Int) + era * 400 + (if m ≤ 2 then 1 else 0)
  (y, m, d)

/-- Date part of an ISO-8601 timestamp for the given day number. -/
def isoDateOfDay (day : Int) : String :=
  let c := civilFromDays day
  pad4 c.1.toNat ++ "-" ++ pad2 c.2.1 ++ "-" ++ pad2 c.2.2

/-- todayKey (App.tsx line 71): new Date().toISOString().slice(0, 10).
toISOString renders the instant in UTC, so the key is the UTC calendar
date of the instant now (epoch milliseconds). -/
def todayKey (now : Int) : String := isoDateOfDay (now.fdiv 86400000)

/-- Modelled from the spec's words, for comparison with todayKey: the
calendar date of the instant in the local time zone, where tzOffsetMin is
the local offset from UTC in minutes (local wall time = UTC + offset). -/
def localDateKey (now tzOffsetMin : Int) : String :=
  isoDateOfDay ((now + tzOffsetMin * 60000).fdiv 86400000)

/-- Key produced for index i by lastNDays (App.tsx lines 449-459):
dt.setDate(d.getDate() - i) followed by dt.toISOString().slice(0, 10).
Under a fixed-offset time zone (no DST change in the window), moving the
local calendar date back by i days at the same local wall time moves the
instant back by exactly i * 86400000 ms, so the key is the todayKey of
that shifted instant. -/
def lastNDaysKey (now : Int) (i : Nat) : String :=
  todayKey (now - (i : Int) * 86400000)

/- ===== Local storage (App.tsx lines 101-108) ===== -/

/-- loadLS: reads key from store (localStorage.getItem, none when absent),
and -- because JS treats the empty string as falsy in v ? ... : ... --
returns the fallback for an empty stored string; otherwise it JSON-parses
the string (parse models JSON.parse, error for a throw) and the
surrounding try/catch turns any parse failure into the fallback. -/
def loadLS {T : Type} (store : String → Option String)
    (parse : String → Except Unit T) (key : String) (fallback : T) : T :=
  match store key with
  | none => fallback
  | some v =>
    if v = "" then fallback
    else
      match parse v with
      | Except.ok t => t
      | Except.error _ => fallback

/- ===== Clock state and transitions ===== -/

/-- The reactive fields of the component that the session clock and the
history log touch (App.tsx lines 214-237): settings, isRunning, phase,
remaining (whole seconds), completedSessions, the monotonic countdown
target targetRef (epoch ms, none when not armed), and the history map. -/
structure AppState where
  settings : Settings
  isRunning : Bool
  phase : Phase
  remaining : Nat
  completedSessions : Nat
  target : Option Int
  history : HistoryMap

/-- Whole seconds left before deadline t at instant now, as computed by
both tick and pause: Math.ceil(Math.max(0, t - Date.now()) / 1000).
Int.toNat is exactly Math.max(0, -) here, and (m + 999) / 1000 in Nat is
the ceiling of m / 1000. -/
def ceilSecOf (t now : Int) : Nat := ((t - now).toNat + 999) / 1000

/-- start (App.tsx lines 351-356): when not running, arm the deadline at
now + remaining * 1000 and set running; otherwise do nothing. -/
def start (now : Int) (s : AppState) : AppState :=
  if s.isRunning then s
  else { s with target := some (now + (s.remaining : Int) * 1000), isRunning := true }

/-- pause (App.tsx lines 357-367): when running, freeze remaining from the
target (when armed), stop, and discard the target; otherwise do nothing. -/
def pause (now : Int) (s : AppState) : AppState :=
  if s.isRunning then
    match s.target with
    | some t => { s with remaining := ceilSecOf t now, isRunning := false, target := none }
    | none => { s with isRunning := false, target := none }
  else s

/-- tick (App.tsx lines 259-264): the interval body recomputes remaining
from the target.  The interval only exists while isRunning (the effect
returns immediately otherwise), and the body returns when no target is
armed. -/
def tick (now : Int) (s : AppState) : AppState :=
  if s.isRunning then
    match s.target with
    | some t => { s with remaining := ceilSecOf t now }
    | none => s
  else s

/-- The setHistory updater run on focus expiry (App.tsx lines 315-325):
read the day at key (empty when absent), then store the day with count + 1,
minutes + minutes and the new session record appended. -/
def recordCompletion (key : String) (minutes : Nat) (preset : String)
    (ts : Int) (h : HistoryMap) : HistoryMap :=
  let day := dayOf h key
  fun k =>
    if k = key then
      some { count := day.count + 1
             minutes := day.minutes + minutes
             sessions := day.sessions ++ [{ ts := ts, minutes := minutes, preset := preset }] }
    else h k

/-- The phase switcher and history logging effect (App.tsx lines 278-348).
It runs whenever its dependencies change and returns at once when
remaining > 0; otherwise: on focus it logs the completed focus session
under todayKey, increments completedSessions, flips to break and resets
remaining to the break duration; on break it flips to focus and resets to
the focus duration; in both cases autoStartNext decides whether the clock
re-arms the target and keeps running or stops with no target.  The effect
never reads isRunning.  The audio beep has no effect on this state. -/
def expireEffect (now : Int) (s : AppState) : AppState :=
  if s.remaining > 0 then s
  else
    match s.phase with
    | Phase.focus =>
      let s1 := { s with
        history := recordCompletion (todayKey now) s.settings.focusMin
          s.settings.presetName now s.history
        completedSessions := s.completedSessions + 1
        phase := Phase.break_
        remaining := s.settings.breakMin * 60 }
      if s.settings.autoStartNext then
        { s1 with isRunning := true
                  target := some (now + (s.settings.breakMin : Int) * 60 * 1000) }
      else
        { s1 with isRunning := false, target := none }
    | Phase.break_ =>
      let s1 := { s with phase := Phase.focus, remaining := s.settings.focusMin * 60 }
      if s.settings.autoStartNext then
        { s1 with isRunning := true
                  target := some (now + (s.settings.focusMin : Int) * 60 * 1000) }
      else
        { s1 with isRunning := false, target := none }

/-- reset (App.tsx lines 368-374). -/
def reset (s : AppState) : AppState :=
  { s with isRunning := false, target := none, phase := Phase.focus
           remaining := s.settings.focusMin * 60, completedSessions := 0 }

/-- skip (App.tsx lines 375-393): stop and disarm, flip the phase, reset
remaining to the new phase's full duration, then re-arm and run when
autoStartNext is set.  It never touches history or completedSessions. -/
def skip (now : Int) (s : AppState) : AppState :=
  let s0 := { s with isRunning := false, target := none }
  match s.phase with
  | Phase.focus =>
    let s1 := { s0 with phase := Phase.break_, remaining := s.settings.breakMin * 60 }
    if s.settings.autoStartNext then
      { s1 with isRunning := true
                target := some (now + (s.settings.breakMin : Int) * 60 * 1000) }
    else s1
  | Phase.break_ =>
    let s1 := { s0 with phase := Phase.focus, remaining := s.settings.focusMin * 60 }
    if s.settings.autoStartNext then
      { s1 with isRunning := true
                target := some (now + (s.settings.focusMin : Int) * 60 * 1000) }
    else s1

/-- applyPreset (App.tsx lines 394-400): overwrite the duration fields of
the settings, force phase to focus, stop the clock, disarm the target and
set remaining to the new focus duration -- unconditionally, whether or not
the clock was running. -/
def applyPreset (name : String) (focusMin breakMin : Nat) (s : AppState) : AppState :=
  { s with
    settings := { s.settings with presetName := name, focusMin := focusMin, breakMin := breakMin }
    phase := Phase.focus
    isRunning := false
    target := none
    remaining := focusMin * 60 }

/-- The duration (minutes) the settings configure for a phase. -/
def phaseDurMin (cfg : Settings) : Phase → Nat
  | Phase.focus => cfg.focusMin
  | Phase.break_ => cfg.breakMin

/-- The remaining-sync effect (App.tsx lines 247-253): when the duration
fields or the phase change, and the clock is neither running nor
mid-countdown (target armed), re-synchronize remaining to the current
phase's configured duration; otherwise leave the state alone. -/
def syncRemainingEffect (s : AppState) : AppState :=
  if !s.isRunning && s.target == none then
    { s with remaining := phaseDurMin s.settings s.phase * 60 }
  else s

/-- The phase the clock flips to on expiry or skip. -/
def nextPhase : Phase → Phase
  | Phase.focus => Phase.break_
  | Phase.break_ => Phase.focus

/- ===== History-log call sequences (for the HistoryDay invariant) ===== -/

/-- Arguments of one recordCompletion call (one focus expiry). -/
structure CompletionCall where
  key : String
  minutes : Nat
  preset : String
  ts : Int

/-- A history map with no keys assigned, the initial value of the
pomodoro_history_v3 slice. -/
def emptyHistory : HistoryMap := fun _ => none

/-- Replay a sequence of recordCompletion calls, oldest first. -/
def applyCalls (calls : List CompletionCall) (h : HistoryMap) : HistoryMap :=
  calls.foldl (fun h c => recordCompletion c.key c.minutes c.preset c.ts h) h

/-- The HistoryDay bookkeeping invariant: count is the number of sessions
and minutes is the sum of their minutes fields. -/
def wfDay (d : HistoryDay) : Prop :=
  d.count = d.sessions.length ∧ d.minutes = (d.sessions.map DaySession.minutes).sum

/- ===== Concrete states for witnesses and counterexamples ===== -/

/-- The default Deep Work settings (App.tsx lines 205-210). -/
def sampleSettings : Settings :=
  { presetName := "Deep Work (90/15)", focusMin := 90, breakMin := 15, autoStartNext := true }

/-- A freshly loaded state: paused focus, Deep Work defaults. -/
def sampleState : AppState :=
  { settings := sampleSettings, isRunning := false, phase := Phase.focus
    remaining := 5400, completedSessions := 0, target := none, history := fun _ => none }

/-- A running break-phase state with an armed deadline. -/
def runningState : AppState :=
  { settings := sampleSettings, isRunning := true, phase := Phase.break_
    remaining := 300, completedSessions := 1, target := some 300000, history := fun _ => none }

/-- A running focus-phase state whose recomputed remaining has reached 0. -/
def expiredState : AppState :=
  { settings := sampleSettings, isRunning := true, phase := Phase.focus
    remaining := 0, completedSessions := 2, target := some 0, history := fun _ => none }

/-- A paused focus state with a one-minute focus duration and
autoStartNext off. -/
def c2Init : AppState :=
  { settings := { presetName := "Deep Work (90/15)", focusMin := 1, breakMin := 1
                  autoStartNext := false }
    isRunning := false, phase := Phase.focus, remaining := 60
    completedSessions := 0, target := none, history := fun _ => none }

/-- A running focus state whose deadline is not on a whole-second
boundary relative to instant 0. -/
def c9State : AppState :=
  { settings := sampleSettings, isRunning := true, phase := Phase.focus
    remaining := 2, completedSessions := 0, target := some 1500, history := fun _ => none }

/-- A JSON.parse model for the boolean theme slice: accepts the two
JSON boolean literals, throws on everything else. -/
def parseBool : String → Except Unit Bool
  | "true" => Except.ok true
  | "false" => Except.ok false
  | _ => Except.error ()

/-- A store holding a parsable value under the theme key only. -/
def themeStore : String → Option String :=
  fun k => if k = "pomodoro_theme_v1" then some "true" else none

/-- A store holding a corrupt (unparsable) string under the history key. -/
def corruptStore : String → Option String :=
  fun k => if k = "pomodoro_history_v3" then some "not-json" else none

/- ===== Theorems ===== -/

/-- The expiry effect leaves any state with time still on the clock
untouched. -/
theorem expireEffect_of_pos (t : Int) (x : AppState) (h : 0 < x.remaining) :
    expireEffect t x = x := by
  simp [expireEffect, h]

/-- C1: when the recomputed remaining reaches 0 while running, the focus
expiry appends exactly one SessionRecord to today's HistoryDay (other
days untouched), increments the run's completed-session counter, flips
the phase to break, resets remaining to the full configured break
duration, and per autoStartNext either re-arms the deadline and stays
running or becomes paused with no deadline; the symmetric break expiry
flips/resets with the focus duration, never appends a record and leaves
the counter alone. -/
theorem c1_expire_transition (s : AppState) (now : Int)
    (_hrun : s.isRunning = true) (hrem : s.remaining = 0) :
    (s.phase = Phase.focus →
      (expireEffect now s).history (todayKey now) =
        some { count := (dayOf s.history (todayKey now)).count + 1
               minutes := (dayOf s.history (todayKey now)).minutes + s.settings.focusMin
               sessions := (dayOf s.history (todayKey now)).sessions ++
                 [{ ts := now, minutes := s.settings.focusMin
                    preset := s.settings.presetName }] } ∧
      (∀ k, k ≠ todayKey now → (expireEffect now s).history k = s.history k) ∧
      (expireEffect now s).completedSessions = s.completedSessions + 1 ∧
      (expireEffect now s).phase = Phase.break_ ∧
      (expireEffect now s).remaining = s.settings.breakMin * 60 ∧
      (expireEffect now s).isRunning = s.settings.autoStartNext ∧
      (expireEffect now s).target =
        (if s.settings.autoStartNext then
          some (now + (s.settings.breakMin : Int) * 60 * 1000) else none)) ∧
    (s.phase = Phase.break_ →
      (expireEffect now s).history = s.history ∧
      (expireEffect now s).completedSessions = s.completedSessions ∧
      (expireEffect now s).phase = Phase.focus ∧
      (expireEffect now s).remaining = s.settings.focusMin * 60 ∧
      (expireEffect now s).isRunning = s.settings.autoStartNext ∧
      (expireEffect now s).target =
        (if s.settings.autoStartNext then
          some (now + (s.settings.focusMin : Int) * 60 * 1000) else none)) := by
  constructor
  · intro hp
    cases ha : s.settings.autoStartNext <;>
      simp [expireEffect, hrem, hp, ha, recordCompletion, dayOf] <;>
      exact fun k hk => by simp [hk]
  · intro hp
    cases ha : s.settings.autoStartNext <;>
      simp [expireEffect, hrem, hp, ha]

/-- C1 witness: the expiry at instant 0 of a concrete running focus state
with Deep Work settings flips to break, bumps the counter to 3, resets
remaining to 900 seconds and logs one 90-minute record for 1970-01-01. -/
theorem c1_expire_transition_witness :
    (expireEffect 0 expiredState).phase = Phase.break_ ∧
    (expireEffect 0 expiredState).completedSessions = 3 ∧
    (expireEffect 0 expiredState).remaining = 900 ∧
    (expireEffect 0 expiredState).history "1970-01-01" =
      some { count := 1, minutes := 90
             sessions := [{ ts := 0, minutes := 90, preset := "Deep Work (90/15)" }] } := by
  have h := (c1_expire_transition expiredState 0 rfl rfl).1 rfl
  obtain ⟨hh, _, hc, hp, hr, _⟩ := h
  refine ⟨hp, by rw [hc]; decide, by rw [hr]; decide, ?_⟩
  have hkey : todayKey 0 = "1970-01-01" := by decide
  rw [hkey] at hh
  rw [hh]
  rfl

/-- C2 counterexample: the expiry guard checks only remaining, not the
running flag.  Starting the one-minute focus clock at instant 0 and
pausing exactly at the 60000 ms deadline recomputes remaining to 0 and
leaves the clock paused -- yet the expiry effect still fires from that
paused state: the phase flips to break and a focus completion is counted,
refuting the clause that Expire never fires while paused. -/
theorem c2_expire_fires_while_paused :
    (pause 60000 (start 0 c2Init)).isRunning = false ∧
    (pause 60000 (start 0 c2Init)).remaining = 0 ∧
    (expireEffect 60000 (pause 60000 (start 0 c2Init))).phase = Phase.break_ ∧
    (expireEffect 60000 (pause 60000 (start 0 c2Init))).completedSessions = 1 := by
  refine ⟨rfl, by decide, rfl, rfl⟩

/-- C2 (amended): after a Start and a Tick at or past the deadline, the
recomputed remaining is 0 and the Expire fires exactly once -- it resets
remaining to the next phase's positive duration, so a second application
of the expiry effect is a no-op, and a focus expiry appends exactly one
record (a break expiry none) to today's sessions.  However the expiry
guard checks only remaining = 0, not the running flag: a Pause at or
after the deadline also recomputes remaining to 0 and the expiry then
fires from the paused state (see the counterexample). -/
theorem c2_expire_exactly_once (s : AppState) (t0 t1 : Int)
    (hpause : s.isRunning = false) (_hd : 0 < s.remaining)
    (hfocus : 0 < s.settings.focusMin) (hbreak : 0 < s.settings.breakMin)
    (helapsed : (s.remaining : Int) * 1000 ≤ t1 - t0) :
    (tick t1 (start t0 s)).remaining = 0 ∧
    0 < (expireEffect t1 (tick t1 (start t0 s))).remaining ∧
    (∀ t2, expireEffect t2 (expireEffect t1 (tick t1 (start t0 s))) =
      expireEffect t1 (tick t1 (start t0 s))) ∧
    (dayOf (expireEffect t1 (tick t1 (start t0 s))).history (todayKey t1)).sessions.length =
      (dayOf s.history (todayKey t1)).sessions.length +
        (if s.phase = Phase.focus then 1 else 0) := by
  have hc0 : ceilSecOf (t0 + (s.remaining : Int) * 1000) t1 = 0 := by
    simp [ceilSecOf]
    omega
  have hrem : (tick t1 (start t0 s)).remaining = 0 := by
    simp [start, tick, hpause, hc0]
  have hpos : 0 < (expireEffect t1 (tick t1 (start t0 s))).remaining := by
    cases hp : s.phase <;> cases ha : s.settings.autoStartNext <;>
      simp [expireEffect, start, tick, hpause, hp, ha, hc0] <;> omega
  refine ⟨hrem, hpos, fun t2 => expireEffect_of_pos t2 _ hpos, ?_⟩
  cases hp : s.phase <;> cases ha : s.settings.autoStartNext <;>
    simp [expireEffect, start, tick, hpause, hp, ha, hc0, recordCompletion, dayOf]

/-- C2 witness: a concrete paused two-second focus state started at 0 and
ticked at 2500 ms reaches remaining 0, and re-running the expiry effect
at a later instant changes nothing. -/
theorem c2_expire_exactly_once_witness :
    (tick 2500 (start 0 { sampleState with remaining := 2, settings :=
      { sampleSettings with focusMin := 1, breakMin := 1 } })).remaining = 0 ∧
    expireEffect 9000 (expireEffect 2500 (tick 2500 (start 0 { sampleState with
      remaining := 2, settings := { sampleSettings with focusMin := 1, breakMin := 1 } }))) =
    expireEffect 2500 (tick 2500 (start 0 { sampleState with remaining := 2, settings :=
      { sampleSettings with focusMin := 1, breakMin := 1 } })) := by
  have h := c2_expire_exactly_once
    { sampleState with remaining := 2, settings :=
      { sampleSettings with focusMin := 1, breakMin := 1 } }
    0 2500 rfl (by decide) (by decide) (by decide) (by decide)
  exact ⟨h.1, h.2.2.1 9000⟩

/-- One recordCompletion call preserves the HistoryDay bookkeeping
invariant at every key. -/
theorem recordCompletion_wfDay {h : HistoryMap} {k : String} (key : String)
    (m : Nat) (p : String) (ts : Int) (hwf : wfDay (dayOf h k)) :
    wfDay (dayOf (recordCompletion key m p ts h) k) := by
  obtain ⟨h1, h2⟩ := hwf
  by_cases hk : k = key
  · subst hk
    refine ⟨?_, ?_⟩
    · simp only [recordCompletion, dayOf] at h1 ⊢
      simp [List.length_append]
      omega
    · simp only [recordCompletion, dayOf] at h2 ⊢
      simp [List.map_append, List.sum_append]
      omega
  · exact ⟨by simpa [recordCompletion, dayOf, hk] using h1,
      by simpa [recordCompletion, dayOf, hk] using h2⟩

/-- One recordCompletion call only ever appends to a day's session list. -/
theorem recordCompletion_sessions (h : HistoryMap) (k key : String)
    (m : Nat) (p : String) (ts : Int) :
    ∃ t, (dayOf (recordCompletion key m p ts h) k).sessions =
      (dayOf h k).sessions ++ t := by
  by_cases hk : k = key
  · subst hk
    exact ⟨[{ ts := ts, minutes := m, preset := p }], by simp [recordCompletion, dayOf]⟩
  · exact ⟨[], by simp [recordCompletion, dayOf, hk]⟩

/-- Replaying calls preserves the invariant at every key. -/
theorem applyCalls_wfDay (calls : List CompletionCall) (h : HistoryMap)
    (hwf : ∀ k, wfDay (dayOf h k)) :
    ∀ k, wfDay (dayOf (applyCalls calls h) k) := by
  induction calls generalizing h with
  | nil => exact hwf
  | cons c cs ih =>
    intro k
    exact ih (recordCompletion c.key c.minutes c.preset c.ts h)
      (fun k' => recordCompletion_wfDay c.key c.minutes c.preset c.ts (hwf k')) k

/-- Replaying calls only ever appends to a day's session list. -/
theorem applyCalls_sessions (calls : List CompletionCall) (h : HistoryMap)
    (k : String) :
    ∃ t, (dayOf (applyCalls calls h) k).sessions = (dayOf h k).sessions ++ t := by
  induction calls generalizing h with
  | nil => exact ⟨[], by simp [applyCalls]⟩
  | cons c cs ih =>
    obtain ⟨t1, ht1⟩ := recordCompletion_sessions h k c.key c.minutes c.preset c.ts
    obtain ⟨t2, ht2⟩ := ih (recordCompletion c.key c.minutes c.preset c.ts h)
    exact ⟨t1 ++ t2, by simp [applyCalls] at ht2 ⊢; rw [ht2, ht1, List.append_assoc]⟩

/-- C3: after any sequence of recordCompletion calls starting from the
empty history, every date-key's HistoryDay satisfies sessionCount =
length of sessions and totalMinutes = sum of the session minutes, and
each call only appends to a day's session list -- existing records are
never mutated or deleted. -/
theorem c3_history_invariant (calls : List CompletionCall) (k : String) :
    (dayOf (applyCalls calls emptyHistory) k).count =
      (dayOf (applyCalls calls emptyHistory) k).sessions.length ∧
    (dayOf (applyCalls calls emptyHistory) k).minutes =
      ((dayOf (applyCalls calls emptyHistory) k).sessions.map DaySession.minutes).sum ∧
    (∀ h0 : HistoryMap, ∃ t,
      (dayOf (applyCalls calls h0) k).sessions = (dayOf h0 k).sessions ++ t) := by
  have hwf := applyCalls_wfDay calls emptyHistory
    (fun _ => by simp [dayOf, emptyHistory, emptyDay, wfDay]) k
  exact ⟨hwf.1, hwf.2, fun h0 => applyCalls_sessions calls h0 k⟩

/-- C4: Skip never touches the history log or the completed-session
counter -- even when skipping a focus phase early -- while flipping the
phase, resetting remaining to the new phase's full configured duration,
and honoring autoStartNext exactly as Expire does: the resulting running
flag and deadline are those an Expire at the same instant would produce. -/
theorem c4_skip_frame (s : AppState) (now : Int) :
    (skip now s).history = s.history ∧
    (skip now s).completedSessions = s.completedSessions ∧
    (skip now s).phase = nextPhase s.phase ∧
    (skip now s).remaining = phaseDurMin s.settings (nextPhase s.phase) * 60 ∧
    (skip now s).isRunning = s.settings.autoStartNext ∧
    (skip now s).target =
      (if s.settings.autoStartNext then
        some (now + (phaseDurMin s.settings (nextPhase s.phase) : Int) * 60 * 1000)
      else none) ∧
    (skip now s).isRunning = (expireEffect now { s with remaining := 0 }).isRunning ∧
    (skip now s).target = (expireEffect now { s with remaining := 0 }).target := by
  cases hp : s.phase <;> cases ha : s.settings.autoStartNext <;>
    simp [skip, expireEffect, nextPhase, phaseDurMin, hp, ha]

/-- C5 counterexample: applying a preset while the clock is RUNNING does
not leave the in-flight countdown untouched: on a concrete running break
state, applyPreset stops the clock, discards the deadline, forces the
phase back to focus and overwrites remaining with the new focus duration. -/
theorem c5_running_preset_cex :
    runningState.isRunning = true ∧
    (applyPreset "Flow (50/10)" 50 10 runningState).isRunning = false ∧
    (applyPreset "Flow (50/10)" 50 10 runningState).target = none ∧
    (applyPreset "Flow (50/10)" 50 10 runningState).phase ≠ runningState.phase ∧
    (applyPreset "Flow (50/10)" 50 10 runningState).remaining ≠ runningState.remaining := by
  decide

/-- C5 (amended): applying a preset or custom settings goes through
applyPreset, which -- paused or running alike -- overwrites the duration
fields, forces the phase to focus, stops the clock, discards the deadline
and sets remaining to the new focus duration (history and the session
counter are untouched).  The separate settings-sync effect is the one
that re-synchronizes remaining to the current phase's new duration, and
it does so only when the clock is paused with no armed deadline; while
running it leaves the state untouched. -/
theorem c5_duration_change (s : AppState) (name : String) (f b : Nat) :
    ((applyPreset name f b s).settings.presetName = name ∧
     (applyPreset name f b s).settings.focusMin = f ∧
     (applyPreset name f b s).settings.breakMin = b ∧
     (applyPreset name f b s).phase = Phase.focus ∧
     (applyPreset name f b s).isRunning = false ∧
     (applyPreset name f b s).target = none ∧
     (applyPreset name f b s).remaining = f * 60 ∧
     (applyPreset name f b s).history = s.history ∧
     (applyPreset name f b s).completedSessions = s.completedSessions) ∧
    (s.isRunning = true → syncRemainingEffect s = s) ∧
    (s.isRunning = false → s.target = none →
      (syncRemainingEffect s).remaining = phaseDurMin s.settings s.phase * 60) := by
  refine ⟨by simp [applyPreset], ?_, ?_⟩
  · intro h
    simp [syncRemainingEffect, h]
  · intro h ht
    simp [syncRemainingEffect, h, ht]

/-- C5 witness: the sync effect leaves a concrete running state alone and
re-synchronizes remaining on a concrete paused state. -/
theorem c5_duration_change_witness :
    syncRemainingEffect runningState = runningState ∧
    (syncRemainingEffect sampleState).remaining =
      phaseDurMin sampleState.settings sampleState.phase * 60 :=
  ⟨(c5_duration_change runningState "Custom" 60 10).2.1 rfl,
   (c5_duration_change sampleState "Custom" 60 10).2.2 rfl rfl⟩

/-- C6 counterexample: todayKey truncates Date.prototype.toISOString,
which renders the instant in UTC, not in the local time zone.  At epoch
instant 0 in a zone one hour west of UTC (offset -60 minutes) the local
calendar date is 1969-12-31, but the key is 1970-01-01. -/
theorem c6_todayKey_not_local_cex :
    todayKey 0 = "1970-01-01" ∧ localDateKey 0 (-60) = "1969-12-31" ∧
    todayKey 0 ≠ localDateKey 0 (-60) := by
  decide

/-- C6 (amended): the date-key under which a session is stored is the UTC
calendar date of the instant (YYYY-MM-DD truncated from toISOString); it
equals the local calendar date only for instants whose UTC day and local
day coincide, and the last-N-days query uses that same key for offset 0. -/
theorem c6_date_key_utc (now tz : Int)
    (hsame : now.fdiv 86400000 = (now + tz * 60000).fdiv 86400000) :
    todayKey now = localDateKey now tz ∧ lastNDaysKey now 0 = todayKey now := by
  constructor
  · unfold todayKey localDateKey
    rw [hsame]
  · simp [lastNDaysKey]

/-- C6 witness: at noon UTC of 1970-01-01 the UTC and UTC-1 local days
coincide, and there the key does equal the local date. -/
theorem c6_date_key_utc_witness :
    todayKey 43200000 = localDateKey 43200000 (-60) ∧
    lastNDaysKey 43200000 0 = todayKey 43200000 :=
  c6_date_key_utc 43200000 (-60) (by decide)

/-- C7: while running with deadline t, both the tick recompute and the
pause freeze report remaining = ceil(max(0, t - now) / 1000) whole
seconds; that value is strictly positive exactly when some milliseconds
are left before the deadline, and 0 exactly when now is at or after it. -/
theorem c7_remaining_ceil (s : AppState) (t now : Int)
    (hrun : s.isRunning = true) (ht : s.target = some t) :
    (tick now s).remaining = ceilSecOf t now ∧
    (pause now s).remaining = ceilSecOf t now ∧
    (0 < ceilSecOf t now ↔ now < t) ∧
    (ceilSecOf t now = 0 ↔ t ≤ now) := by
  refine ⟨by simp [tick, hrun, ht], by simp [pause, hrun, ht], ?_, ?_⟩ <;>
    · unfold ceilSecOf
      omega

/-- C7 witness: on a concrete running state with deadline 300000 ms, a
tick at instant 299001 still shows a full second while a tick at 300000
shows zero. -/
theorem c7_remaining_ceil_witness :
    (tick 299001 runningState).remaining = ceilSecOf 300000 299001 ∧
    (0 < ceilSecOf 300000 299001 ↔ (299001 : Int) < 300000) ∧
    (ceilSecOf 300000 300000 = 0 ↔ (300000 : Int) ≤ 300000) :=
  ⟨(c7_remaining_ceil runningState 300000 299001 rfl rfl).1,
   (c7_remaining_ceil runningState 300000 299001 rfl rfl).2.2.1,
   (c7_remaining_ceil runningState 300000 300000 rfl rfl).2.2.2⟩

/-- C8: loadLS returns the parsed stored value whenever the store holds a
parsable string under the key, and returns the typed fallback -- without
any error escaping -- when the key is absent or the stored string fails
to parse (JSON.parse throws inside the try, the catch yields the
fallback).  The hypothesis pins the JSON.parse model to throw on the
empty string, as JSON.parse does, since the source short-circuits falsy
strings to the fallback before parsing. -/
theorem c8_loadLS_fallback (T : Type) (store : String → Option String)
    (parse : String → Except Unit T) (key : String) (fallback : T)
    (hempty : parse "" = Except.error ()) :
    (∀ v t, store key = some v → parse v = Except.ok t →
      loadLS store parse key fallback = t) ∧
    (store key = none → loadLS store parse key fallback = fallback) ∧
    (∀ v, store key = some v → parse v = Except.error () →
      loadLS store parse key fallback = fallback) := by
  refine ⟨?_, ?_, ?_⟩
  · intro v t hv hp
    by_cases hv0 : v = ""
    · rw [hv0, hempty] at hp
      exact absurd hp (by simp)
    · simp [loadLS, hv, hv0, hp]
  · intro hv
    simp [loadLS, hv]
  · intro v hv hp
    by_cases hv0 : v = "" <;> simp [loadLS, hv, hv0, hp]

/-- C8 witness: with a boolean JSON.parse model, the theme key loads its
stored true, a never-written key falls back, and a corrupt history string
falls back silently. -/
theorem c8_loadLS_fallback_witness :
    loadLS themeStore parseBool "pomodoro_theme_v1" false = true ∧
    loadLS themeStore parseBool "pomodoro_settings_v4" false = false ∧
    loadLS corruptStore parseBool "pomodoro_history_v3" true = true :=
  ⟨(c8_loadLS_fallback Bool themeStore parseBool "pomodoro_theme_v1" false rfl).1
      "true" true rfl rfl,
   (c8_loadLS_fallback Bool themeStore parseBool "pomodoro_settings_v4" false rfl).2.1
      (by decide),
   (c8_loadLS_fallback Bool corruptStore parseBool "pomodoro_history_v3" true rfl).2.2
      "not-json" (by decide) rfl⟩

/-- C9 counterexample: pausing at instant 0 a running clock whose
deadline is 1500 ms away freezes remaining at the ceiling value 2 s, and
the immediate restart arms the deadline at 2000 ms -- the composition
does NOT restore the 1500 ms deadline, it rounds it up to the next whole
second. -/
theorem c9_deadline_cex :
    c9State.target = some 1500 ∧
    (start 0 (pause 0 c9State)).remaining = (tick 0 c9State).remaining ∧
    (start 0 (pause 0 c9State)).target = some 2000 ∧
    (start 0 (pause 0 c9State)).target ≠ c9State.target := by
  decide

/-- C9 (amended): Pause immediately followed by Start at the same instant
is the identity on the observable remaining seconds -- the restarted
remaining equals the paused remaining, which is exactly what a tick at
that instant would display -- but the re-armed deadline is
now + remaining * 1000, which equals the old deadline only when the time
left to it is a whole number of seconds; otherwise the deadline moves up
to the next second boundary. -/
theorem c9_pause_start (s : AppState) (t now : Int)
    (hrun : s.isRunning = true) (ht : s.target = some t) :
    (start now (pause now s)).remaining = (pause now s).remaining ∧
    (start now (pause now s)).remaining = (tick now s).remaining ∧
    (start now (pause now s)).isRunning = true ∧
    (start now (pause now s)).target = some (now + (ceilSecOf t now : Int) * 1000) ∧
    (0 ≤ t - now → (t - now) % 1000 = 0 →
      (start now (pause now s)).target = some t) := by
  refine ⟨?_, ?_, ?_, ?_, ?_⟩ <;>
    simp [start, pause, tick, hrun, ht]
  intro h0 hmod
  unfold ceilSecOf
  omega

/-- C9 witness: on a concrete running state paused and restarted at
instant 0, remaining is unchanged; with the deadline exactly 300 whole
seconds away the deadline itself is restored. -/
theorem c9_pause_start_witness :
    (start 0 (pause 0 runningState)).remaining = (pause 0 runningState).remaining ∧
    (start 0 (pause 0 runningState)).target = some 300000 :=
  ⟨(c9_pause_start runningState 300000 0 rfl rfl).1,
   (c9_pause_start runningState 300000 0 rfl rfl).2.2.2.2 (by decide) (by decide)⟩

/-- C10: Start and Pause are guarded no-ops outside their source state --
Start while already running returns the state unchanged (in particular
the deadline does not move), and Pause while already paused returns the
state unchanged (phase, remaining, running flag, deadline, counters and
history all identical). -/
theorem c10_guarded_noop (s : AppState) (now : Int) :
    (s.isRunning = true → start now s = s) ∧
    (s.isRunning = false → pause now s = s) := by
  constructor
  · intro h
    simp [start, h]
  · intro h
    simp [pause, h]

/-- C10 witness: Start on a concrete running state and Pause on a
concrete paused state both change nothing. -/
theorem c10_guarded_noop_witness :
    start 0 runningState = runningState ∧ pause 0 sampleState = sampleState :=
  ⟨(c10_guarded_noop runningState 0).1 rfl, (c10_guarded_noop sampleState 0).2 rfl⟩

end FlowForge
